import Mathlib

/-!
Shallow embedding of the Videra-SDK upload client (src/main.go) and proofs
about its chunked-transfer engine, session negotiator, master pool and retry
orchestrator.

The Go program is single-threaded; all network and filesystem interaction is
modelled by explicit oracles: a `GoFile` describes what `os.Open`/`Read`/`Seek`
on one file path can observe, a `Resp` is one HTTP append response, an
`InitNet` is the outcome of the session-open request, and a `TrialEnv` packs
the environment one retry trial sees.  Machine integers (int64) never overflow
in the scenarios the spec discusses, so byte counts and offsets are `Nat`;
the master-pool cursor is `Int` because `lastUsedMaster` starts at -1 and Go's
`%` is truncated division remainder (`Int.tmod`).
-/

namespace Videra

/-- `modelUploadOrder` (main.go L31): the fixed model manifest order. -/
def modelUploadOrder : List String := ["model", "config", "code"]

/-- `defaultMaxRetries` (main.go L25). -/
def defaultMaxRetries : Nat := 3

/-- Initial package-level `chunkSize` (main.go L19): 4 << 20 bytes. -/
def initialChunkSize : Nat := 4 <<< 20

/-- What `os.Open`/`file.Read` can observe on one file: its byte content, and
optionally a position `p` from which every `Read` fails with a non-EOF error
(`readErrPos = some p`), modelling an I/O fault part-way through the file. -/
structure GoFile where
  content : List Nat
  readErrPos : Option Nat
deriving Repr, DecidableEq

/-- Result of one Go `file.Read(buffer)` call. -/
inductive ReadRes where
  /-- non-EOF read error: `err != nil && err != io.EOF` -/
  | rerr : ReadRes
  /-- `(0, io.EOF)` -/
  | reof : ReadRes
  /-- `(n, nil)`: `n` bytes were read into the buffer -/
  | rok (n : Nat) : ReadRes
deriving Repr, DecidableEq

/-- Go `file.Read(buffer)` at position `pos` with `len(buffer) = bufSize`:
at or past end-of-file it returns `(0, io.EOF)` (except that a zero-length
buffer always yields `(0, nil)`, as in Go's `internal/poll.FD.Read`);
otherwise it returns `min bufSize (remaining)` bytes. -/
def GoFile.read (f : GoFile) (pos bufSize : Nat) : ReadRes :=
  match f.readErrPos with
  | some p =>
      if p ≤ pos then .rerr
      else if bufSize = 0 then .rok 0
      else if f.content.length ≤ pos then .reof
      else .rok (min bufSize (f.content.length - pos))
  | none =>
      if bufSize = 0 then .rok 0
      else if f.content.length ≤ pos then .reof
      else .rok (min bufSize (f.content.length - pos))

/-- The distinct non-nil Go `error` values the client code can return. -/
inductive GoErr where
  | eof : GoErr        -- io.EOF (returned at L186)
  | transport : GoErr  -- client.Do failure
  | readErr : GoErr    -- non-EOF file.Read failure
deriving Repr, DecidableEq

/-- One HTTP response to an APPEND request: either a transport-level failure of
`client.Do`, or a status code with the optional `Offset` and
`Max-Request-Size` headers (header present ⇒ carries a parsed number). -/
inductive Resp where
  | transportErr : Resp
  | http (status : Nat) (offsetHdr : Option Nat) (maxReqSizeHdr : Option Nat) : Resp
deriving Repr, DecidableEq

/-- The observable content of one APPEND request: the `Offset` header sent and
the length of the chunk body `buffer[:bytesread]`. -/
structure AppendReq where
  offset : Nat
  bodyLen : Nat
deriving Repr, DecidableEq

/-- The mutable state of `uploadFiles` (main.go L164-234): the outer-loop index
`fileIdx`, whether the next step opens `files[fileIdx]` (`atOpen`), the open
file's read position `pos` (the Go file cursor, moved by `Read` and `Seek`),
the cumulative `offset` variable (L168), and `bufSize = len(buffer)`, which
always equals the package-level `chunkSize` during the call (L167, L220-221). -/
structure St where
  fileIdx : Nat
  atOpen : Bool
  pos : Nat
  offset : Nat
  bufSize : Nat
deriving Repr, DecidableEq

/-- How a run of `uploadFiles` ended. -/
inductive UFOut where
  /-- the Go function returned, with this `error` value (`none` = `nil`) -/
  | ret (e : Option GoErr) : UFOut
  /-- the process panicked with a nil-pointer dereference: when `os.Open`
      fails, `file` is the nil `*os.File` and main.go L172 evaluates
      `file.Name()` on it before the `err != nil` check at L174, so the
      function never returns and the process exits -/
  | panicked : UFOut
  /-- the model's fuel (or response script) ran out before the function returned -/
  | fuelOut : UFOut
deriving Repr, DecidableEq

/-- Result of a run of `uploadFiles`: how it returned, the APPEND requests it
sent (in order; request `i` was answered by script entry `i`), and the value
of the package-level `chunkSize` when it returned. -/
structure RunRes where
  out : UFOut
  reqs : List AppendReq
  finalChunk : Nat
deriving Repr, DecidableEq

/-- The loops of `uploadFiles` (main.go L170-231), one recursive step per
iteration.  `files` lists, in upload order, what opening each path observes
(`none` = `os.Open` fails).  `script` holds the append responses still to be
consumed.  Branches mirror the source:
* `atOpen`: outer `range` loop — past the last file return `nil` (L233);
  on an `os.Open` failure the process panics before the error is ever
  examined: L172 `log.Println("Uploading", fileName, file.Name())` calls
  `Name()` on the nil `*os.File` (the `err != nil` check and `return err`
  at L174-177 are unreachable); otherwise the file is open at position 0.
* read error: non-EOF errors are returned (L192); EOF on file index
  `len(modelUploadOrder)-1` returns `err = io.EOF` (L184-186) — note the
  source compares against the model manifest length whatever `uploadOrder`
  is; EOF elsewhere closes the file and moves to the next (L189-190), keeping
  `offset`.
* a successful read of `n` bytes sends an APPEND at `offset`; the response is
  the script head.  `client.Do` error: return it (L203-205).  Status 200:
  `offset += n`, continue (L228).  Status 201: return `nil` (L208-210).
  Other status with `Offset` header `v`: `offset = v; file.Seek(offset, 0)`,
  retry (L211-216).  Other status with `Max-Request-Size` header `m` (and no
  `Offset`): `chunkSize = m; buffer = make([]byte, chunkSize);
  file.Seek(offset, 0)`, retry (L217-223).  Neither header: `return err`
  (L226) — at that point `err` is the `nil` left by the successful
  `client.Do`, so the function returns `nil`. -/
def run (files : List (Option GoFile)) : Nat → List Resp → St → RunRes
  | 0, _, st => ⟨.fuelOut, [], st.bufSize⟩
  | fuel + 1, script, st =>
    if st.atOpen then
      match files[st.fileIdx]? with
      | none => ⟨.ret none, [], st.bufSize⟩
      | some none => ⟨.panicked, [], st.bufSize⟩
      | some (some _) =>
          run files fuel script { st with atOpen := false, pos := 0 }
    else
      match files[st.fileIdx]? with
      | none => ⟨.fuelOut, [], st.bufSize⟩
      | some none => ⟨.fuelOut, [], st.bufSize⟩
      | some (some f) =>
        match f.read st.pos st.bufSize with
        | .rerr => ⟨.ret (some .readErr), [], st.bufSize⟩
        | .reof =>
            if st.fileIdx = modelUploadOrder.length - 1 then
              ⟨.ret (some .eof), [], st.bufSize⟩
            else
              run files fuel script { st with atOpen := true, fileIdx := st.fileIdx + 1 }
        | .rok n =>
          let req : AppendReq := ⟨st.offset, n⟩
          match script with
          | [] => ⟨.fuelOut, [], st.bufSize⟩
          | resp :: rest =>
            match resp with
            | .transportErr => ⟨.ret (some .transport), [req], st.bufSize⟩
            | .http status offH mrsH =>
              if status = 200 then
                let r := run files fuel rest
                  { st with pos := st.pos + n, offset := st.offset + n }
                ⟨r.out, req :: r.reqs, r.finalChunk⟩
              else if status = 201 then
                ⟨.ret none, [req], st.bufSize⟩
              else
                match offH with
                | some v =>
                    let r := run files fuel rest { st with pos := v, offset := v }
                    ⟨r.out, req :: r.reqs, r.finalChunk⟩
                | none =>
                  match mrsH with
                  | some m =>
                      let r := run files fuel rest { st with pos := st.offset, bufSize := m }
                      ⟨r.out, req :: r.reqs, r.finalChunk⟩
                  | none => ⟨.ret none, [req], st.bufSize⟩

/-- `uploadFiles` (main.go L164): `buffer := make([]byte, chunkSize)` takes the
package-level `chunkSize` as it is at entry (`gChunk`), `offset := int64(0)`,
and the loops start at the first file of the manifest. -/
def uploadFiles (gChunk : Nat) (files : List (Option GoFile)) (script : List Resp)
    (fuel : Nat) : RunRes :=
  run files fuel script ⟨0, true, 0, 0, gChunk⟩

/-- `updateMasterURL` (main.go L44-49):
`lastUsedMaster = (lastUsedMaster + 1) % len(mastersURLS)`.  Go's `%` on int64
is the truncated-division remainder, i.e. `Int.tmod`.  `n` is the pool size
(`main` L316-319 guarantees `n ≥ 1`); the function returns the new cursor. -/
def updateMasterURL (n : Nat) (lastUsedMaster : Int) : Int :=
  (lastUsedMaster + 1).tmod n

/-- What the session-open interaction (`sendInitialRequest` plus the
`getFileSize` calls of its `sendVideoInitialRequest` /
`sendModelInitialRequest` wrappers, main.go L84-161) can observe. -/
inductive InitNet where
  /-- some `os.Stat` in the wrapper failed — the wrapper calls `log.Fatal` -/
  | statFail : InitNet
  /-- `client.Do` failed — the error is returned (L107-111) -/
  | connErr : InitNet
  /-- an HTTP response with its status, `ID` header and optional
      `Max-Request-Size` header -/
  | http (status : Nat) (idHdr : String) (maxReqSizeHdr : Option Nat) : InitNet
deriving Repr, DecidableEq

/-- Outcome of the session-open step. -/
inductive InitOut where
  /-- `log.Fatal(err)` on a stat failure (L128-130, L140-151): process exit -/
  | fatalStat : InitOut
  /-- `log.Fatal(res.StatusCode)` on a non-201 status (L113-115): process exit -/
  | fatalStatus (code : Nat) : InitOut
  /-- a non-nil error was returned to the orchestrator -/
  | errOut : InitOut
  /-- success, with the `ID` response header -/
  | okId (id : String) : InitOut
deriving Repr, DecidableEq

/-- The session-open step (main.go L95-161), passed the package-level
`chunkSize` and returning it alongside the outcome.  On a 201 response the
`ID` header is read (L117); then L118-119 — `chunkSize, _ :=
strconv.ParseInt(res.Header.Get("Max-Request-Size"), 10, 64)` — declares a NEW
local variable with `:=` that shadows the package-level `chunkSize`, and only
logs it (L120), so the package-level `chunkSize` is returned unchanged in
every case. -/
def sendInitialRequest (gChunk : Nat) (net : InitNet) : InitOut × Nat :=
  match net with
  | .statFail => (.fatalStat, gChunk)
  | .connErr => (.errOut, gChunk)
  | .http status idHdr _mrsHdr =>
      if status = 201 then (.okId idHdr, gChunk)
      else (.fatalStatus status, gChunk)

/-- What `updateUploadURL` (main.go L52-81) can observe. -/
inductive MasterRes where
  /-- `client.Do` failed: the error is returned (L58-62) -/
  | connErr : MasterRes
  /-- `ioutil.ReadAll` failed: `log.Fatal(err)` (L66-69) -/
  | readFatal : MasterRes
  /-- non-200 status: `errors.New(body)` is returned (L73-76) -/
  | badStatus : MasterRes
  /-- 200: the body becomes the upload URL, `nil` is returned (L78-80) -/
  | ok : MasterRes
deriving Repr, DecidableEq

/-- Everything one retry trial of the orchestrator observes from the outside
world: the master-discovery outcome, the session-open outcome, and the append
responses `uploadFiles` will consume. -/
structure TrialEnv where
  master : MasterRes
  init : InitNet
  script : List Resp
deriving Repr, DecidableEq

/-- How the whole orchestrator run ended.  The four `fatal*` constructors are
the distinct `log.Fatal` sites, which terminate the process; `panicked` is
the nil-`*os.File` dereference at L172 on an `os.Open` failure, which also
terminates the process. -/
inductive Outcome where
  | success : Outcome
  /-- `log.Fatal("File not uploaded")` after the loop (L267, L305) -/
  | fatalNotUploaded : Outcome
  | fatalStat : Outcome
  | fatalInitStatus (code : Nat) : Outcome
  | fatalMasterRead : Outcome
  | panicked : Outcome
  | fuelOut : Outcome
deriving Repr, DecidableEq

/-- What one iteration of the retry loop body does. -/
inductive TrialStep where
  /-- the iteration ended the whole function/process with this outcome -/
  | halt (o : Outcome) : TrialStep
  /-- `updateUploadURL` failed: `updateMasterURL(); continue` (L242-247) -/
  | failMaster : TrialStep
  /-- session open or `uploadFiles` returned an error: `continue`, with the
      package-level `chunkSize` now equal to `gChunk` -/
  | failOther (gChunk : Nat) : TrialStep
deriving Repr, DecidableEq

/-- One iteration of the retry-loop body shared by `UploadVideo` (L240-265)
and `UploadModel` (L274-303): master discovery, then session open, then
`uploadFiles`; `gChunk` is the package-level `chunkSize` entering the
iteration. -/
def runTrial (files : List (Option GoFile)) (fuel gChunk : Nat) (env : TrialEnv) :
    TrialStep :=
  match env.master with
  | .connErr => .failMaster
  | .badStatus => .failMaster
  | .readFatal => .halt .fatalMasterRead
  | .ok =>
    match sendInitialRequest gChunk env.init with
    | (.fatalStat, _) => .halt .fatalStat
    | (.fatalStatus c, _) => .halt (.fatalInitStatus c)
    | (.errOut, g) => .failOther g
    | (.okId _, g) =>
      let r := uploadFiles g files env.script fuel
      match r.out with
      | .ret none => .halt .success
      | .ret (some _) => .failOther r.finalChunk
      | .panicked => .halt .panicked
      | .fuelOut => .halt .fuelOut

/-- Result of an orchestrator run: the final outcome, the package-level
`chunkSize` and master cursor afterwards, how many loop iterations (attempts)
ran, and — as an observation for the proofs — the value of the package-level
`chunkSize` at the start of each attempt. -/
structure LoopRes where
  outcome : Outcome
  gChunk : Nat
  cursor : Int
  attempts : Nat
  trialChunks : List Nat
deriving Repr, DecidableEq

/-- The retry loop `for trial := 0; trial <= defaultMaxRetries; trial, _ =
trial+1, <-ticker.C` shared by `UploadVideo` (L240) and `UploadModel` (L274).
`n` is the master-pool size; `cursor` is `lastUsedMaster`; `envs` supplies
each iteration's environment (the recursion consumes one per iteration, so an
exhausted list ends the model run with `fuelOut`).  On a master failure the
pool cursor rotates (L245, L279); on any other failure the loop just
continues; after the last trial, `log.Fatal("File not uploaded")`. -/
def orchLoop (files : List (Option GoFile)) (fuel n : Nat) :
    List TrialEnv → Nat → Nat → Int → LoopRes
  | envs, trial, gChunk, cursor =>
    if trial ≤ defaultMaxRetries then
      match envs with
      | [] => ⟨.fuelOut, gChunk, cursor, 0, []⟩
      | env :: rest =>
        match runTrial files fuel gChunk env with
        | .halt o => ⟨o, gChunk, cursor, 1, [gChunk]⟩
        | .failMaster =>
            let r := orchLoop files fuel n rest (trial + 1) gChunk
              (updateMasterURL n cursor)
            ⟨r.outcome, r.gChunk, r.cursor, r.attempts + 1, gChunk :: r.trialChunks⟩
        | .failOther g =>
            let r := orchLoop files fuel n rest (trial + 1) g cursor
            ⟨r.outcome, r.gChunk, r.cursor, r.attempts + 1, gChunk :: r.trialChunks⟩
    else ⟨.fatalNotUploaded, gChunk, cursor, 0, []⟩

/-- `UploadVideo` (main.go L237-268): manifest `["video"]`, retry loop from
trial 0.  `video` is what opening the video path observes, `gChunk` the
package-level `chunkSize` at entry, `cursor` the master cursor. -/
def UploadVideo (video : Option GoFile) (n : Nat) (cursor : Int)
    (envs : List TrialEnv) (fuel gChunk : Nat) : LoopRes :=
  orchLoop [video] fuel n envs 0 gChunk cursor

/-- `UploadModel` (main.go L271-306): manifest `modelUploadOrder =
["model", "config", "code"]`, retry loop from trial 0. -/
def UploadModel (model config code : Option GoFile) (n : Nat) (cursor : Int)
    (envs : List TrialEnv) (fuel gChunk : Nat) : LoopRes :=
  orchLoop [model, config, code] fuel n envs 0 gChunk cursor

/-- A response the engine treats as an offset resync: status neither 200 nor
201 and the `Offset` header present (main.go L207, L211-216); the payload is
the header value. -/
def offCorr : Resp → Option Nat
  | .http s (some v) _ => if s ≠ 200 ∧ s ≠ 201 then some v else none
  | _ => none

/-- A response the engine treats as a chunk-size correction: status neither
200 nor 201, no `Offset` header, and `Max-Request-Size` present
(main.go L207, L217-223); the payload is the header value. -/
def sizeCorr : Resp → Option Nat
  | .http s none (some m) => if s ≠ 200 ∧ s ≠ 201 then some m else none
  | _ => none

/-- A successful `Read` never returns more bytes than the buffer holds. -/
theorem GoFile.read_rok_le {f : GoFile} {pos bufSize n : Nat}
    (h : f.read pos bufSize = .rok n) : n ≤ bufSize := by
  unfold GoFile.read at h
  split at h <;> split_ifs at h <;>
    first
    | exact ReadRes.noConfusion h
    | (injection h with h; omega)

/-- The first APPEND request a run sends (if any) carries the `offset` of the
starting state: the steps before the first send (opening a file, advancing
past an exhausted file) leave `offset` untouched. -/
theorem run_head_offset (files : List (Option GoFile)) :
    ∀ fuel script st r, (run files fuel script st).reqs.head? = some r →
      r.offset = st.offset := by
  intro fuel
  induction fuel with
  | zero => intro script st r h; simp [run] at h
  | succ fuel ih =>
    intro script st r h
    simp only [run] at h
    split at h
    · -- atOpen: open the file or finish the manifest
      split at h
      · simp at h
      · simp at h
      · have h2 := ih _ _ _ h
        exact h2
    · -- inner loop: read and send
      split at h
      · simp at h
      · simp at h
      · split at h
        · simp at h
        · split at h
          · simp at h
          · have h2 := ih _ _ _ h
            exact h2
        · -- a chunk was read: the head request carries st.offset in every branch
          split at h
          · simp at h
          · split at h
            · simp only [List.head?_cons, Option.some.injEq] at h
              subst h; rfl
            · split at h
              · simp only [List.head?_cons, Option.some.injEq] at h
                subst h; rfl
              · split at h
                · simp only [List.head?_cons, Option.some.injEq] at h
                  subst h; rfl
                · split at h
                  · simp only [List.head?_cons, Option.some.injEq] at h
                    subst h; rfl
                  · split at h
                    · simp only [List.head?_cons, Option.some.injEq] at h
                      subst h; rfl
                    · simp only [List.head?_cons, Option.some.injEq] at h
                      subst h; rfl

/-- Buffer-size invariant: as long as none of the first `j` consumed responses
is a chunk-size correction, the `j`-th request body of a run stays within the
starting buffer size bound `N` (the buffer is resized only at corrections, and
`Read` never fills more than the buffer). -/
theorem run_bodyLen_le (files : List (Option GoFile)) :
    ∀ (fuel : Nat) (script : List Resp) (st : St) (N j : Nat) (r : AppendReq),
      st.bufSize ≤ N →
      (∀ k resp, k < j → script[k]? = some resp → sizeCorr resp = none) →
      (run files fuel script st).reqs[j]? = some r →
      r.bodyLen ≤ N := by
  intro fuel
  induction fuel with
  | zero => intro script st N j r _ _ hr; simp [run] at hr
  | succ fuel ih =>
    intro script st N j r hbuf hno hr
    simp only [run] at hr
    split at hr
    · split at hr
      · simp at hr
      · simp at hr
      · exact ih script { st with atOpen := false, pos := 0 } N j r hbuf hno hr
    · split at hr
      · simp at hr
      · simp at hr
      · split at hr
        · simp at hr
        · split at hr
          · simp at hr
          · exact ih script { st with atOpen := true, fileIdx := st.fileIdx + 1 }
              N j r hbuf hno hr
        · rename_i f hf n hread
          split at hr
          · simp at hr
          · rename_i resp rest
            split at hr
            · -- transport error: a single request was sent
              match j with
              | 0 =>
                  simp only [List.getElem?_cons_zero, Option.some.injEq] at hr
                  subst hr
                  exact le_trans (GoFile.read_rok_le hread) hbuf
              | j' + 1 => simp at hr
            · rename_i status offH mrsH
              split at hr
              · -- 200: acknowledged, buffer unchanged
                match j with
                | 0 =>
                    simp only [List.getElem?_cons_zero, Option.some.injEq] at hr
                    subst hr
                    exact le_trans (GoFile.read_rok_le hread) hbuf
                | j' + 1 =>
                    simp only [List.getElem?_cons_succ] at hr
                    refine ih rest { st with pos := st.pos + n, offset := st.offset + n }
                      N j' r hbuf ?_ hr
                    intro k resp' hk hks
                    exact hno (k + 1) resp' (by omega) (by simpa using hks)
              · split at hr
                · -- 201: completion, single request
                  match j with
                  | 0 =>
                      simp only [List.getElem?_cons_zero, Option.some.injEq] at hr
                      subst hr
                      exact le_trans (GoFile.read_rok_le hread) hbuf
                  | j' + 1 => simp at hr
                · split at hr
                  · -- offset resync: buffer unchanged
                    rename_i v
                    match j with
                    | 0 =>
                        simp only [List.getElem?_cons_zero, Option.some.injEq] at hr
                        subst hr
                        exact le_trans (GoFile.read_rok_le hread) hbuf
                    | j' + 1 =>
                        simp only [List.getElem?_cons_succ] at hr
                        refine ih rest { st with pos := v, offset := v } N j' r hbuf ?_ hr
                        intro k resp' hk hks
                        exact hno (k + 1) resp' (by omega) (by simpa using hks)
                  · split at hr
                    · -- chunk-size correction: excluded beyond request 0
                      rename_i m
                      match j with
                      | 0 =>
                          simp only [List.getElem?_cons_zero, Option.some.injEq] at hr
                          subst hr
                          exact le_trans (GoFile.read_rok_le hread) hbuf
                      | j' + 1 =>
                          have hc := hno 0 (.http status none (some m)) (by omega)
                            (by simp)
                          simp only [sizeCorr] at hc
                          split at hc
                          · exact Option.noConfusion hc
                          · simp_all
                    · -- neither header: single request
                      match j with
                      | 0 =>
                          simp only [List.getElem?_cons_zero, Option.some.injEq] at hr
                          subst hr
                          exact le_trans (GoFile.read_rok_le hread) hbuf
                      | j' + 1 => simp at hr

/-- Shape of a chunk-size-correction response. -/
theorem sizeCorr_eq_some {resp : Resp} {N : Nat} (h : sizeCorr resp = some N) :
    ∃ s, resp = .http s none (some N) ∧ ¬s = 200 ∧ ¬s = 201 := by
  cases resp with
  | transportErr => simp [sizeCorr] at h
  | http s offH mrsH =>
    cases offH with
    | some v => simp [sizeCorr] at h
    | none =>
      cases mrsH with
      | none => simp [sizeCorr] at h
      | some m =>
        simp only [sizeCorr] at h
        split at h
        · next hc =>
            injection h with h
            subst h
            exact ⟨s, rfl, hc.1, hc.2⟩
        · exact Option.noConfusion h

/-- Shape of an offset-resync response. -/
theorem offCorr_eq_some {resp : Resp} {v : Nat} (h : offCorr resp = some v) :
    ∃ s mh, resp = .http s (some v) mh ∧ ¬s = 200 ∧ ¬s = 201 := by
  cases resp with
  | transportErr => simp [offCorr] at h
  | http s offH mrsH =>
    cases offH with
    | none => simp [offCorr] at h
    | some w =>
        simp only [offCorr] at h
        split at h
        · next hc =>
            injection h with h
            subst h
            exact ⟨s, mrsH, rfl, hc.1, hc.2⟩
        · exact Option.noConfusion h

/-- After the script's `i`-th response applies a chunk-size correction to `N`,
every later request of the run — up to the next chunk-size correction — has a
body of at most `N` bytes. -/
theorem run_sizeCorr_bound (files : List (Option GoFile)) :
    ∀ (fuel : Nat) (script : List Resp) (st : St) (i j N : Nat) (respN : Resp)
      (r : AppendReq),
      script[i]? = some respN → sizeCorr respN = some N → i < j →
      (∀ k resp, i < k → k < j → script[k]? = some resp → sizeCorr resp = none) →
      (run files fuel script st).reqs[j]? = some r →
      r.bodyLen ≤ N := by
  intro fuel
  induction fuel with
  | zero => intro script st i j N respN r _ _ _ _ hr; simp [run] at hr
  | succ fuel ih =>
    intro script st i j N respN r hi hN hij hmid hr
    simp only [run] at hr
    split at hr
    · split at hr
      · simp at hr
      · simp at hr
      · exact ih script { st with atOpen := false, pos := 0 }
          i j N respN r hi hN hij hmid hr
    · split at hr
      · simp at hr
      · simp at hr
      · split at hr
        · simp at hr
        · split at hr
          · simp at hr
          · exact ih script { st with atOpen := true, fileIdx := st.fileIdx + 1 }
              i j N respN r hi hN hij hmid hr
        · rename_i f hf n hread
          split at hr
          · simp at hr
          · rename_i resp0 rest
            split at hr
            · -- transport error: terminal with a single request
              cases j with
              | zero => omega
              | succ j' => simp at hr
            · rename_i status offH mrsH
              split at hr
              · -- status 200: acknowledged
                rename_i hstat
                cases j with
                | zero => omega
                | succ j' =>
                  simp only [List.getElem?_cons_succ] at hr
                  match i with
                  | 0 =>
                      simp only [List.getElem?_cons_zero, Option.some.injEq] at hi
                      subst hi
                      subst hstat
                      cases offH <;> cases mrsH <;> simp [sizeCorr] at hN
                  | i' + 1 =>
                      simp only [List.getElem?_cons_succ] at hi
                      refine ih rest { st with pos := st.pos + n, offset := st.offset + n }
                        i' j' N respN r hi hN (by omega) ?_ hr
                      intro k resp' hk1 hk2 hks
                      exact hmid (k + 1) resp' (by omega) (by omega) (by simpa using hks)
              · rename_i hstat200
                split at hr
                · -- status 201: terminal
                  cases j with
                  | zero => omega
                  | succ j' => simp at hr
                · rename_i hstat201
                  split at hr
                  · -- offset resync
                    rename_i v
                    cases j with
                    | zero => omega
                    | succ j' =>
                      simp only [List.getElem?_cons_succ] at hr
                      match i with
                      | 0 =>
                          simp only [List.getElem?_cons_zero, Option.some.injEq] at hi
                          subst hi
                          simp [sizeCorr] at hN
                      | i' + 1 =>
                          simp only [List.getElem?_cons_succ] at hi
                          refine ih rest { st with pos := v, offset := v }
                            i' j' N respN r hi hN (by omega) ?_ hr
                          intro k resp' hk1 hk2 hks
                          exact hmid (k + 1) resp' (by omega) (by omega) (by simpa using hks)
                  · split at hr
                    · -- chunk-size correction consumed now
                      rename_i m
                      cases j with
                      | zero => omega
                      | succ j' =>
                        simp only [List.getElem?_cons_succ] at hr
                        match i with
                        | 0 =>
                            simp only [List.getElem?_cons_zero, Option.some.injEq] at hi
                            subst hi
                            have hmN : m = N := by
                              simp only [sizeCorr] at hN
                              rw [if_pos ⟨hstat200, hstat201⟩] at hN
                              exact Option.some.inj hN
                            subst hmN
                            refine run_bodyLen_le files fuel rest
                              { st with pos := st.offset, bufSize := m } m j' r
                              (Nat.le_refl m) ?_ hr
                            intro k resp' hk hks
                            exact hmid (k + 1) resp' (by omega) (by omega)
                              (by simpa using hks)
                        | i' + 1 =>
                            simp only [List.getElem?_cons_succ] at hi
                            refine ih rest { st with pos := st.offset, bufSize := m }
                              i' j' N respN r hi hN (by omega) ?_ hr
                            intro k resp' hk1 hk2 hks
                            exact hmid (k + 1) resp' (by omega) (by omega)
                              (by simpa using hks)
                    · -- neither header: terminal
                      cases j with
                      | zero => omega
                      | succ j' => simp at hr

/-- After the script's `i`-th response applies an offset resync to `v`, the
next request the run sends (request `i + 1`, if any) carries offset `v`. -/
theorem run_offCorr_next_offset (files : List (Option GoFile)) :
    ∀ (fuel : Nat) (script : List Resp) (st : St) (i v : Nat) (resp : Resp)
      (r : AppendReq),
      script[i]? = some resp → offCorr resp = some v →
      (run files fuel script st).reqs[i + 1]? = some r →
      r.offset = v := by
  intro fuel
  induction fuel with
  | zero => intro script st i v resp r _ _ hr; simp [run] at hr
  | succ fuel ih =>
    intro script st i v resp r hi hv hr
    simp only [run] at hr
    split at hr
    · split at hr
      · simp at hr
      · simp at hr
      · exact ih script { st with atOpen := false, pos := 0 } i v resp r hi hv hr
    · split at hr
      · simp at hr
      · simp at hr
      · split at hr
        · simp at hr
        · split at hr
          · simp at hr
          · exact ih script { st with atOpen := true, fileIdx := st.fileIdx + 1 }
              i v resp r hi hv hr
        · rename_i f hf n hread
          split at hr
          · simp at hr
          · rename_i resp0 rest
            split at hr
            · -- transport error: terminal
              simp at hr
            · rename_i status offH mrsH
              split at hr
              · -- status 200
                rename_i hstat
                simp only [List.getElem?_cons_succ] at hr
                match i with
                | 0 =>
                    simp only [List.getElem?_cons_zero, Option.some.injEq] at hi
                    subst hi
                    subst hstat
                    cases offH <;> simp [offCorr] at hv
                | i' + 1 =>
                    simp only [List.getElem?_cons_succ] at hi
                    exact ih rest { st with pos := st.pos + n, offset := st.offset + n }
                      i' v resp r hi hv hr
              · rename_i hstat200
                split at hr
                · -- status 201: terminal
                  simp at hr
                · rename_i hstat201
                  split at hr
                  · -- offset resync consumed now
                    rename_i w
                    simp only [List.getElem?_cons_succ] at hr
                    match i with
                    | 0 =>
                        simp only [List.getElem?_cons_zero, Option.some.injEq] at hi
                        subst hi
                        simp only [offCorr] at hv
                        rw [if_pos ⟨hstat200, hstat201⟩] at hv
                        have hwv := Option.some.inj hv
                        have hhead := run_head_offset files fuel rest
                          { st with pos := w, offset := w } r
                          (by rw [List.head?_eq_getElem?]; exact hr)
                        exact hwv ▸ hhead
                    | i' + 1 =>
                        simp only [List.getElem?_cons_succ] at hi
                        exact ih rest { st with pos := w, offset := w } i' v resp r hi hv hr
                  · split at hr
                    · -- chunk-size correction
                      rename_i m
                      simp only [List.getElem?_cons_succ] at hr
                      match i with
                      | 0 =>
                          simp only [List.getElem?_cons_zero, Option.some.injEq] at hi
                          subst hi
                          simp [offCorr] at hv
                      | i' + 1 =>
                          simp only [List.getElem?_cons_succ] at hi
                          exact ih rest { st with pos := st.offset, bufSize := m }
                            i' v resp r hi hv hr
                    · -- neither header: terminal
                      simp at hr

/-- One step of the engine on an offset-resync response: the request just read
is recorded, `offset` is set to the server value `v`, the file is sought to
`v` (`pos := v`), and — whatever the `Max-Request-Size` header `mh` says — the
buffer size is left unchanged. -/
theorem run_offCorr_step (files : List (Option GoFile)) (fuel : Nat) (st : St)
    (f : GoFile) (n s v : Nat) (mh : Option Nat) (rest : List Resp)
    (hao : st.atOpen = false) (hf : files[st.fileIdx]? = some (some f))
    (hread : f.read st.pos st.bufSize = .rok n)
    (hs200 : ¬s = 200) (hs201 : ¬s = 201) :
    run files (fuel + 1) (.http s (some v) mh :: rest) st =
      ⟨(run files fuel rest { st with pos := v, offset := v }).out,
       ⟨st.offset, n⟩ :: (run files fuel rest { st with pos := v, offset := v }).reqs,
       (run files fuel rest { st with pos := v, offset := v }).finalChunk⟩ := by
  simp [run, hao, hf, hread, hs200, hs201]

/-- On a response with status ∉ {200, 201} that carries an `Offset` header,
the `Max-Request-Size` header is ignored entirely: the run is identical to the
run that receives the same response without the `Max-Request-Size` header. -/
theorem run_both_headers_eq (files : List (Option GoFile)) :
    ∀ (fuel s v : Nat) (m : Option Nat) (rest : List Resp) (st : St),
      ¬s = 200 → ¬s = 201 →
      run files fuel (.http s (some v) m :: rest) st =
        run files fuel (.http s (some v) none :: rest) st := by
  intro fuel
  induction fuel with
  | zero => intro s v m rest st _ _; rfl
  | succ fuel ih =>
    intro s v m rest st hs200 hs201
    obtain ⟨fi, ao, pos, off, buf⟩ := st
    cases ao with
    | true =>
      cases hg : files[fi]? with
      | none => simp [run, hg]
      | some of =>
        cases of with
        | none => simp [run, hg]
        | some f =>
            simp only [run, hg]
            exact ih s v m rest _ hs200 hs201
    | false =>
      cases hg : files[fi]? with
      | none => simp [run, hg]
      | some of =>
        cases of with
        | none => simp [run, hg]
        | some f =>
          cases hread : f.read pos buf with
          | rerr => simp [run, hg, hread]
          | reof =>
              by_cases hfi : fi = modelUploadOrder.length - 1
              · simp [run, hg, hread, hfi]
              · simp only [run, hg, hread, if_neg hfi]
                exact ih s v m rest _ hs200 hs201
          | rok n => simp [run, hg, hread, hs200, hs201]

/-- A trial environment on which the loop body never halts the process and
never succeeds, whatever the current chunk size: it only ever asks the loop to
continue. -/
def trialFails (files : List (Option GoFile)) (fuel : Nat) (env : TrialEnv) : Prop :=
  ∀ g, runTrial files fuel g env = .failMaster ∨
       ∃ g', runTrial files fuel g env = .failOther g'

/-- Entered at `trial`, the retry loop performs at most
`defaultMaxRetries + 1 - trial` further attempts. -/
theorem orchLoop_attempts_le (files : List (Option GoFile)) (fuel n : Nat) :
    ∀ (envs : List TrialEnv) (trial gChunk : Nat) (cursor : Int),
      (orchLoop files fuel n envs trial gChunk cursor).attempts ≤
        defaultMaxRetries + 1 - trial := by
  intro envs
  induction envs with
  | nil =>
      intro trial gChunk cursor
      simp only [orchLoop]
      split
      · simp
      · simp
  | cons env rest ih =>
      intro trial gChunk cursor
      simp only [orchLoop]
      split
      · rename_i ht
        split
        · simp only
          omega
        · have h2 := ih (trial + 1) gChunk (updateMasterURL n cursor)
          simp only
          omega
        · rename_i g hg
          have h2 := ih (trial + 1) g cursor
          simp only
          omega
      · simp

/-- Entering the loop body within bounds on an immediately-successful trial
terminates at once, reporting success after that single attempt. -/
theorem orchLoop_success_now (files : List (Option GoFile)) (fuel n : Nat)
    (env : TrialEnv) (rest : List TrialEnv) (trial gChunk : Nat) (cursor : Int)
    (ht : trial ≤ defaultMaxRetries)
    (hs : runTrial files fuel gChunk env = .halt .success) :
    orchLoop files fuel n (env :: rest) trial gChunk cursor =
      ⟨.success, gChunk, cursor, 1, [gChunk]⟩ := by
  simp [orchLoop, ht, hs]

/-- If every available trial fails and enough environments are provided to
cover the remaining trials, the loop exhausts its bound and ends with the
`log.Fatal("File not uploaded")` outcome. -/
theorem orchLoop_all_fail (files : List (Option GoFile)) (fuel n : Nat) :
    ∀ (envs : List TrialEnv) (trial gChunk : Nat) (cursor : Int),
      (∀ env ∈ envs, trialFails files fuel env) →
      defaultMaxRetries + 1 - trial ≤ envs.length →
      (orchLoop files fuel n envs trial gChunk cursor).outcome = .fatalNotUploaded := by
  intro envs
  induction envs with
  | nil =>
      intro trial gChunk cursor _ hlen
      simp only [orchLoop]
      split
      · rename_i ht
        exfalso
        simp only [List.length_nil] at hlen
        omega
      · rfl
  | cons env rest ih =>
      intro trial gChunk cursor hfail hlen
      simp only [orchLoop]
      split
      · rename_i ht
        rcases hfail env (by simp) gChunk with hm | ⟨g', ho⟩
        · rw [hm]
          exact ih (trial + 1) gChunk (updateMasterURL n cursor)
            (fun e he => hfail e (List.mem_cons_of_mem _ he))
            (by simp only [List.length_cons] at hlen; omega)
        · rw [ho]
          exact ih (trial + 1) g' cursor
            (fun e he => hfail e (List.mem_cons_of_mem _ he))
            (by simp only [List.length_cons] at hlen; omega)
      · rfl

/-- Iterating the rotation from a cursor `c ≥ -1` (the initial value of
`lastUsedMaster` is `-1`): after `k + 1` rotations the cursor is
`(c + k + 1) % n` (Euclidean remainder — which agrees with Go's truncated `%`
here because the dividend is never negative). -/
theorem updateMasterURL_iterate (n : Nat) (hn : 0 < n) (c : Int) (hc : -1 ≤ c) :
    ∀ k : Nat, (updateMasterURL n)^[k + 1] c = (c + k + 1) % n := by
  intro k
  induction k with
  | zero =>
      simp only [Nat.zero_add, Function.iterate_one]
      unfold updateMasterURL
      rw [Int.tmod_eq_emod (by omega) (by omega)]
      norm_num
  | succ k ih =>
      rw [Function.iterate_succ_apply', ih]
      unfold updateMasterURL
      have hnn : (0 : Int) < n := by exact_mod_cast hn
      have h1 : 0 ≤ (c + k + 1) % n := Int.emod_nonneg _ (by omega)
      rw [Int.tmod_eq_emod (by omega) (by omega), Int.emod_add_emod]
      push_cast
      ring_nf

/-- Claim C1: the spec says an append response with status ∉ {200, 201} and neither
an `Offset` nor a `Max-Request-Size` header makes `uploadFiles` return a
non-nil error, so the transfer is not reported successful.  The code instead
reaches `return err` (main.go L226) where `err` is the `nil` left by the
successful `client.Do` at L202, so `uploadFiles` returns `nil` and the
orchestrator reports success.  Evaluation at the failing input: a 3-byte video
whose single append is answered `500` with no headers yields return value
`nil` and overall outcome `success`. -/
theorem C1_neither_header_returns_nil_err :
    (uploadFiles 4 [some ⟨[7, 7, 7], none⟩] [.http 500 none none] 10).out = .ret none
  ∧ (UploadVideo (some ⟨[7, 7, 7], none⟩) 1 0
      [⟨.ok, .http 201 "s1" none, [.http 500 none none]⟩] 10 4).outcome = .success := by
  decide

/-- Claim C2: the spec says end-of-file with zero bytes on the last manifest file
without any 201 acknowledgment makes `uploadFiles` fail, for the single-file
video manifest as well as the model manifest.  The code's last-file test
(main.go L184) is `idx == len(modelUploadOrder)-1`, i.e. `idx == 2` whatever
`uploadOrder` is, so for the video manifest (`idx = 0`) the EOF branch falls
through to "finished current file", the outer loop ends and L233 returns
`nil`: the 3-byte video whose only append is acknowledged 200 (never 201) is
reported successful.  The model manifest does hit the branch and returns
`io.EOF`. -/
theorem C2_video_eof_not_incomplete :
    (uploadFiles 4 [some ⟨[7, 7, 7], none⟩] [.http 200 none none] 10).out = .ret none
  ∧ (UploadVideo (some ⟨[7, 7, 7], none⟩) 1 0
      [⟨.ok, .http 201 "s1" none, [.http 200 none none]⟩] 10 4).outcome = .success
  ∧ (uploadFiles 4 [some ⟨[7, 7, 7], none⟩, some ⟨[], none⟩, some ⟨[], none⟩]
      [.http 200 none none] 20).out = .ret (some .eof) := by
  decide

/-- Claim C3: the spec says a `Max-Request-Size` header on the session-open (init)
response is adopted as the chunk size of the subsequent transfer.  At
main.go L119 `chunkSize, _ := strconv.ParseInt(...)` declares a fresh local
variable shadowing the package-level `chunkSize`, which is only logged, so the
package-level value is unchanged: after an init response carrying
`Max-Request-Size: 16`, the first append of the following `uploadFiles` call
still reads a full 20-byte file in one 20-byte chunk (bound by the old 4 MiB
chunk size), not at most 16 bytes. -/
theorem C3_init_chunk_size_not_adopted :
    sendInitialRequest 4194304 (.http 201 "s1" (some 16)) = (.okId "s1", 4194304)
  ∧ (uploadFiles 4194304 [some ⟨List.replicate 20 0, none⟩] [.transportErr] 10).reqs
      = [⟨0, 20⟩]
  ∧ ¬(20 ≤ 16) := by
  decide

/-- Claim C4, counterexample: the claim says a failed trial's chunk size — including
a mid-transfer `Max-Request-Size` correction — is discarded, so the next trial
starts with the same initial chunk size as the first.  `chunkSize` is a
package-level variable (main.go L19) mutated at L220, so the correction
survives the failed trial: with initial chunk 5, trial 1's append is answered
with `Max-Request-Size: 3` and then a transport error; trial 2 then starts
with chunk size 3, not 5, and its first append body is 3 bytes. -/
theorem C4_chunk_size_leaks_counterexample :
    (UploadVideo (some ⟨[1, 2, 3, 4, 5, 6, 7, 8], none⟩) 1 0
      [⟨.ok, .http 201 "s1" none, [.http 400 none (some 3), .transportErr]⟩,
       ⟨.ok, .http 201 "s1" none, [.transportErr]⟩] 20 5).trialChunks = [5, 3]
  ∧ (uploadFiles 3 [some ⟨[1, 2, 3, 4, 5, 6, 7, 8], none⟩] [.transportErr] 20).reqs
      = [⟨0, 3⟩]
  ∧ (3 : Nat) ≠ 5 := by
  decide

/-- Claim C8, counterexample: the claim says every local file error inside the
transfer loop — open or read failure — is fatal immediately (process exit)
and never retried.  A non-EOF `Read` failure (main.go L192) is in fact
`return err` to the orchestrator, which retries it like any transfer failure:
with a video file whose every read fails, four trials run (not one) and the
run ends in the ordinary retry-exhaustion `log.Fatal("File not uploaded")`,
so the read failure was retried rather than immediately fatal. -/
theorem C8_read_failure_retried_counterexample :
    (UploadVideo (some ⟨[1, 2, 3], some 0⟩) 1 0
      [⟨.ok, .http 201 "s1" none, []⟩, ⟨.ok, .http 201 "s1" none, []⟩,
       ⟨.ok, .http 201 "s1" none, []⟩, ⟨.ok, .http 201 "s1" none, []⟩] 10 4)
      = ⟨.fatalNotUploaded, 4, 0, 4, [4, 4, 4, 4]⟩
  ∧ (uploadFiles 4 [some ⟨[1, 2, 3], some 0⟩] [] 10).out = .ret (some .readErr) := by
  decide

/-- Claim C6: master rotation is round-robin — each `updateMasterURL` advances
the cursor by exactly one position modulo the pool size `n`, and over `n`
consecutive rotations from any reachable cursor (`-1 ≤ c`, the initial value
being `-1`) every position is selected exactly once before any repeats: the
selections are pairwise distinct, and every index `0 ≤ m < n` occurs. -/
theorem C6_round_robin (n : Nat) (c : Int) (hn : 0 < n) (hc : -1 ≤ c) :
    (∀ d : Int, -1 ≤ d → updateMasterURL n d = (d + 1) % n)
  ∧ (∀ i j : Nat, i < n → j < n →
      (updateMasterURL n)^[i + 1] c = (updateMasterURL n)^[j + 1] c → i = j)
  ∧ (∀ m : Int, 0 ≤ m → m < n →
      ∃ k : Nat, k < n ∧ (updateMasterURL n)^[k + 1] c = m) := by
  refine ⟨?_, ?_, ?_⟩
  · intro d hd
    unfold updateMasterURL
    exact Int.tmod_eq_emod (by omega) (by omega)
  · intro i j hi hj hij
    rw [updateMasterURL_iterate n hn c hc, updateMasterURL_iterate n hn c hc] at hij
    have h0 : ((c + i + 1) - (c + j + 1)) % n = 0 :=
      Int.emod_eq_emod_iff_emod_sub_eq_zero.mp hij
    have h1 : ((i : Int) - j) % n = 0 := by
      have he : (c + i + 1) - (c + j + 1) = (i : Int) - j := by ring
      rwa [he] at h0
    have h2 : (n : Int) ∣ (i : Int) - j := Int.dvd_of_emod_eq_zero h1
    have h3 : (i : Int) - j = 0 := by
      refine Int.eq_zero_of_abs_lt_dvd h2 ?_
      rw [abs_lt]
      constructor <;> omega
    omega
  · intro m hm0 hmn
    have hnn : (0 : Int) < n := by exact_mod_cast hn
    have h1 : 0 ≤ (m - c - 1) % n := Int.emod_nonneg _ (by omega)
    have h2 : (m - c - 1) % n < n := Int.emod_lt_of_pos _ hnn
    refine ⟨((m - c - 1) % n).toNat, by omega, ?_⟩
    rw [updateMasterURL_iterate n hn c hc, Int.toNat_of_nonneg h1]
    have he1 : c + (m - c - 1) % n + 1 = (m - c - 1) % n + (c + 1) := by ring
    rw [he1, Int.emod_add_emod]
    have he2 : m - c - 1 + (c + 1) = m := by ring
    rw [he2]
    exact Int.emod_eq_of_lt hm0 hmn

/-- Witness for C6 at pool size 3 and the initial cursor -1. -/
theorem C6_round_robin_witness :
    (∀ d : Int, -1 ≤ d → updateMasterURL 3 d = (d + 1) % 3)
  ∧ (∀ i j : Nat, i < 3 → j < 3 →
      (updateMasterURL 3)^[i + 1] (-1) = (updateMasterURL 3)^[j + 1] (-1) → i = j)
  ∧ (∀ m : Int, 0 ≤ m → m < 3 →
      ∃ k : Nat, k < 3 ∧ (updateMasterURL 3)^[k + 1] (-1) = m) :=
  C6_round_robin 3 (-1) (by decide) (by decide)

/-- Claim C7: on an append response whose status is neither 200 nor 201 and
which carries an `Offset` header `v`, the engine sets the cumulative offset to
`v`, seeks the current file to `v`, and retries from there without advancing
past the chunk and without touching the buffer (first conjunct: the exact
one-step behaviour); consequently the next append request sent after such a
response carries offset `v` (second conjunct). -/
theorem C7_offset_resync (files : List (Option GoFile)) (fuel : Nat) :
    (∀ (st : St) (f : GoFile) (n s v : Nat) (mh : Option Nat) (rest : List Resp),
      st.atOpen = false → files[st.fileIdx]? = some (some f) →
      f.read st.pos st.bufSize = .rok n → ¬s = 200 → ¬s = 201 →
      run files (fuel + 1) (.http s (some v) mh :: rest) st =
        ⟨(run files fuel rest { st with pos := v, offset := v }).out,
         ⟨st.offset, n⟩ :: (run files fuel rest { st with pos := v, offset := v }).reqs,
         (run files fuel rest { st with pos := v, offset := v }).finalChunk⟩)
  ∧ (∀ (gChunk : Nat) (script : List Resp) (i v : Nat) (resp : Resp) (r : AppendReq),
      script[i]? = some resp → offCorr resp = some v →
      (uploadFiles gChunk files script fuel).reqs[i + 1]? = some r →
      r.offset = v) := by
  constructor
  · intro st f n s v mh rest hao hf hread hs200 hs201
    exact run_offCorr_step files fuel st f n s v mh rest hao hf hread hs200 hs201
  · intro gChunk script i v resp r hi hv hr
    exact run_offCorr_next_offset files fuel script _ i v resp r hi hv hr

/-- Witness for C7: an 8-byte file uploaded with chunk size 5; the first
append is answered 500 with `Offset: 2`, and the next request indeed carries
offset 2 (and the one-step equation at a concrete state). -/
theorem C7_offset_resync_witness :
    run [some ⟨[1, 2, 3, 4, 5, 6, 7, 8], none⟩] 20 [.http 500 (some 2) none]
        ⟨0, false, 0, 0, 5⟩ =
      ⟨(run [some ⟨[1, 2, 3, 4, 5, 6, 7, 8], none⟩] 19 [] ⟨0, false, 2, 2, 5⟩).out,
       ⟨0, 5⟩ :: (run [some ⟨[1, 2, 3, 4, 5, 6, 7, 8], none⟩] 19 [] ⟨0, false, 2, 2, 5⟩).reqs,
       (run [some ⟨[1, 2, 3, 4, 5, 6, 7, 8], none⟩] 19 [] ⟨0, false, 2, 2, 5⟩).finalChunk⟩
  ∧ (⟨2, 5⟩ : AppendReq).offset = 2 :=
  ⟨(C7_offset_resync [some ⟨[1, 2, 3, 4, 5, 6, 7, 8], none⟩] 19).1
      ⟨0, false, 0, 0, 5⟩ ⟨[1, 2, 3, 4, 5, 6, 7, 8], none⟩ 5 500 2 none []
      rfl rfl (by decide) (by decide) (by decide),
   (C7_offset_resync [some ⟨[1, 2, 3, 4, 5, 6, 7, 8], none⟩] 20).2 5
      [.http 500 (some 2) none, .http 200 none none, .http 201 none none] 0 2
      (.http 500 (some 2) none) ⟨2, 5⟩ (by decide) (by decide) (by decide)⟩

/-- Claim C9: within a single trial, after an append response with status
∉ {200, 201}, no `Offset` header and `Max-Request-Size: N` is processed
(script entry `i`), every later append request body of that trial
(request `j > i`) has length at most `N`, until another such correction
intervenes. -/
theorem C9_post_correction_bound (files : List (Option GoFile))
    (gChunk fuel : Nat) (script : List Resp) (i j N : Nat) (respN : Resp)
    (r : AppendReq)
    (hi : script[i]? = some respN) (hN : sizeCorr respN = some N) (hij : i < j)
    (hmid : ∀ k resp, i < k → k < j → script[k]? = some resp → sizeCorr resp = none)
    (hr : (uploadFiles gChunk files script fuel).reqs[j]? = some r) :
    r.bodyLen ≤ N :=
  run_sizeCorr_bound files fuel script _ i j N respN r hi hN hij hmid hr

/-- Witness for C9: a 10-byte file with chunk size 5; the first append is
answered 400 with `Max-Request-Size: 3`, the next with 200, and the third
request (index 2) has a 3-byte body, within the corrected bound. -/
theorem C9_post_correction_bound_witness : (⟨3, 3⟩ : AppendReq).bodyLen ≤ 3 :=
  C9_post_correction_bound [some ⟨[1, 2, 3, 4, 5, 6, 7, 8, 9, 10], none⟩] 5 20
    [.http 400 none (some 3), .http 200 none none, .http 200 none none] 0 2 3
    (.http 400 none (some 3)) ⟨3, 3⟩ (by decide) (by decide) (by decide)
    (by
      intro k resp h1 h2 hks
      interval_cases k
      · simp only [List.getElem?_cons_succ, List.getElem?_cons_zero,
          Option.some.injEq] at hks
        subst hks
        decide)
    (by decide)

/-- Claim C10 (implicit): when a non-200/201 append response carries both an
`Offset` and a `Max-Request-Size` header, only the offset correction is
applied — the run is identical to the one receiving the same response with no
`Max-Request-Size` header at all (first conjunct), and the step resyncs
`offset`/`pos` to the server value while leaving the buffer size unchanged
(second conjunct). -/
theorem C10_offset_precedence (files : List (Option GoFile)) :
    (∀ (fuel s v m : Nat) (rest : List Resp) (st : St),
      ¬s = 200 → ¬s = 201 →
      run files fuel (.http s (some v) (some m) :: rest) st =
        run files fuel (.http s (some v) none :: rest) st)
  ∧ (∀ (fuel : Nat) (st : St) (f : GoFile) (n s v m : Nat) (rest : List Resp),
      st.atOpen = false → files[st.fileIdx]? = some (some f) →
      f.read st.pos st.bufSize = .rok n → ¬s = 200 → ¬s = 201 →
      run files (fuel + 1) (.http s (some v) (some m) :: rest) st =
        ⟨(run files fuel rest { st with pos := v, offset := v }).out,
         ⟨st.offset, n⟩ :: (run files fuel rest { st with pos := v, offset := v }).reqs,
         (run files fuel rest { st with pos := v, offset := v }).finalChunk⟩) := by
  constructor
  · intro fuel s v m rest st hs200 hs201
    exact run_both_headers_eq files fuel s v (some m) rest st hs200 hs201
  · intro fuel st f n s v m rest hao hf hread hs200 hs201
    exact run_offCorr_step files fuel st f n s v (some m) rest hao hf hread hs200 hs201

/-- Witness for C10 at a concrete 3-byte file and a 500 response carrying both
`Offset: 1` and `Max-Request-Size: 2`. -/
theorem C10_offset_precedence_witness :
    run [some ⟨[9, 9, 9], none⟩] 6 [.http 500 (some 1) (some 2), .transportErr]
        ⟨0, false, 0, 0, 4⟩ =
      run [some ⟨[9, 9, 9], none⟩] 6 [.http 500 (some 1) none, .transportErr]
        ⟨0, false, 0, 0, 4⟩
  ∧ run [some ⟨[9, 9, 9], none⟩] 6 [.http 500 (some 1) (some 2), .transportErr]
        ⟨0, false, 0, 0, 4⟩ =
      ⟨(run [some ⟨[9, 9, 9], none⟩] 5 [.transportErr] ⟨0, false, 1, 1, 4⟩).out,
       ⟨0, 3⟩ :: (run [some ⟨[9, 9, 9], none⟩] 5 [.transportErr] ⟨0, false, 1, 1, 4⟩).reqs,
       (run [some ⟨[9, 9, 9], none⟩] 5 [.transportErr] ⟨0, false, 1, 1, 4⟩).finalChunk⟩ :=
  ⟨(C10_offset_precedence [some ⟨[9, 9, 9], none⟩]).1 6 500 1 2 [.transportErr]
      ⟨0, false, 0, 0, 4⟩ (by decide) (by decide),
   (C10_offset_precedence [some ⟨[9, 9, 9], none⟩]).2 5 ⟨0, false, 0, 0, 4⟩
      ⟨[9, 9, 9], none⟩ 3 500 1 2 [.transportErr]
      rfl rfl (by decide) (by decide) (by decide)⟩

/-- Claim C5: the retry orchestrator (`UploadVideo` and `UploadModel`)
performs at most `defaultMaxRetries + 1` attempts inclusive of the first; a
trial in which negotiation and transfer both succeed terminates the loop
immediately with success after that one attempt; and when every supplied
trial fails, the run ends with the fatal `"File not uploaded"` outcome. -/
theorem C5_retry_orchestrator (fuel n gChunk : Nat) (cursor : Int)
    (video model config code : Option GoFile) :
    (∀ envs, (UploadVideo video n cursor envs fuel gChunk).attempts ≤
        defaultMaxRetries + 1
      ∧ (UploadModel model config code n cursor envs fuel gChunk).attempts ≤
        defaultMaxRetries + 1)
  ∧ (∀ env rest, runTrial [video] fuel gChunk env = .halt .success →
      UploadVideo video n cursor (env :: rest) fuel gChunk =
        ⟨.success, gChunk, cursor, 1, [gChunk]⟩)
  ∧ (∀ env rest,
      runTrial [model, config, code] fuel gChunk env = .halt .success →
      UploadModel model config code n cursor (env :: rest) fuel gChunk =
        ⟨.success, gChunk, cursor, 1, [gChunk]⟩)
  ∧ (∀ envs, defaultMaxRetries + 1 ≤ envs.length →
      (∀ env ∈ envs, trialFails [video] fuel env) →
      (UploadVideo video n cursor envs fuel gChunk).outcome = .fatalNotUploaded)
  ∧ (∀ envs, defaultMaxRetries + 1 ≤ envs.length →
      (∀ env ∈ envs, trialFails [model, config, code] fuel env) →
      (UploadModel model config code n cursor envs fuel gChunk).outcome =
        .fatalNotUploaded) := by
  refine ⟨?_, ?_, ?_, ?_, ?_⟩
  · intro envs
    constructor
    · have h := orchLoop_attempts_le [video] fuel n envs 0 gChunk cursor
      simpa [UploadVideo] using h
    · have h := orchLoop_attempts_le [model, config, code] fuel n envs 0 gChunk cursor
      simpa [UploadModel] using h
  · intro env rest hs
    exact orchLoop_success_now [video] fuel n env rest 0 gChunk cursor
      (by simp [defaultMaxRetries]) hs
  · intro env rest hs
    exact orchLoop_success_now [model, config, code] fuel n env rest 0 gChunk cursor
      (by simp [defaultMaxRetries]) hs
  · intro envs hlen hfail
    exact orchLoop_all_fail [video] fuel n envs 0 gChunk cursor hfail (by omega)
  · intro envs hlen hfail
    exact orchLoop_all_fail [model, config, code] fuel n envs 0 gChunk cursor hfail
      (by omega)

/-- Witness for C5: attempt bound on five all-failing environments, immediate
success on a one-chunk video, and retry exhaustion when every master contact
fails. -/
theorem C5_retry_orchestrator_witness :
    ((UploadVideo (some ⟨[7], none⟩) 1 0
        [⟨.connErr, .statFail, []⟩, ⟨.connErr, .statFail, []⟩,
         ⟨.connErr, .statFail, []⟩, ⟨.connErr, .statFail, []⟩,
         ⟨.connErr, .statFail, []⟩] 10 4).attempts ≤ defaultMaxRetries + 1
      ∧ (UploadModel none none none 1 0
        [⟨.connErr, .statFail, []⟩, ⟨.connErr, .statFail, []⟩,
         ⟨.connErr, .statFail, []⟩, ⟨.connErr, .statFail, []⟩,
         ⟨.connErr, .statFail, []⟩] 10 4).attempts ≤ defaultMaxRetries + 1)
  ∧ UploadVideo (some ⟨[7], none⟩) 1 0
      [⟨.ok, .http 201 "s1" none, [.http 201 none none]⟩] 10 4 =
      ⟨.success, 4, 0, 1, [4]⟩
  ∧ (UploadVideo (some ⟨[7], none⟩) 1 0
      [⟨.connErr, .statFail, []⟩, ⟨.connErr, .statFail, []⟩,
       ⟨.connErr, .statFail, []⟩, ⟨.connErr, .statFail, []⟩] 10 4).outcome =
      .fatalNotUploaded :=
  ⟨(C5_retry_orchestrator 10 1 4 0 (some ⟨[7], none⟩) none none none).1 _,
   (C5_retry_orchestrator 10 1 4 0 (some ⟨[7], none⟩) none none none).2.1
      ⟨.ok, .http 201 "s1" none, [.http 201 none none]⟩ [] (by decide),
   (C5_retry_orchestrator 10 1 4 0 (some ⟨[7], none⟩) none none none).2.2.2.1
      [⟨.connErr, .statFail, []⟩, ⟨.connErr, .statFail, []⟩,
       ⟨.connErr, .statFail, []⟩, ⟨.connErr, .statFail, []⟩] (by decide)
      (by
        intro env henv
        simp only [List.mem_cons, List.not_mem_nil, or_false] at henv
        rcases henv with h | h | h | h <;> (subst h; intro g; left; rfl))⟩

/-- When session open succeeds and `uploadFiles` returns a non-nil error, the
loop body asks to continue (it does not halt the process), carrying the final
package-level chunk size of that `uploadFiles` call into the next trial. -/
theorem runTrial_failOther (files : List (Option GoFile)) (fuel g : Nat)
    (env : TrialEnv) (idh : String) (mh : Option Nat) (e : GoErr)
    (hm : env.master = .ok) (hi : env.init = .http 201 idh mh)
    (hout : (uploadFiles g files env.script fuel).out = .ret (some e)) :
    runTrial files fuel g env =
      .failOther (uploadFiles g files env.script fuel).finalChunk := by
  simp only [runTrial, hm, hi, sendInitialRequest]
  simp [hout]

/-- Claim C4, amended: offset and buffer are indeed re-initialized on every
trial — each `uploadFiles` call starts at cumulative offset 0 with a buffer
bounded by the chunk size it is given (third conjunct) — but the chunk size
itself is package-level state, not trial-scoped: a failed trial hands its
final chunk size, including any mid-transfer `Max-Request-Size` correction,
to the next trial as that trial's starting chunk size (first and second
conjuncts), so the correction is not discarded. -/
theorem C4_amended_chunk_threading (files : List (Option GoFile)) (fuel n : Nat) :
    (∀ (env : TrialEnv) (rest : List TrialEnv) (trial g : Nat) (cursor : Int)
       (g' : Nat), trial ≤ defaultMaxRetries →
       runTrial files fuel g env = .failOther g' →
       (orchLoop files fuel n (env :: rest) trial g cursor).trialChunks =
         g :: (orchLoop files fuel n rest (trial + 1) g' cursor).trialChunks)
  ∧ (∀ (g : Nat) (env : TrialEnv) (idh : String) (mh : Option Nat) (e : GoErr),
       env.master = .ok → env.init = .http 201 idh mh →
       (uploadFiles g files env.script fuel).out = .ret (some e) →
       runTrial files fuel g env =
         .failOther (uploadFiles g files env.script fuel).finalChunk)
  ∧ (∀ (g : Nat) (script : List Resp) (r : AppendReq),
       (uploadFiles g files script fuel).reqs.head? = some r →
       r.offset = 0 ∧ r.bodyLen ≤ g) := by
  refine ⟨?_, ?_, ?_⟩
  · intro env rest trial g cursor g' ht hf
    simp [orchLoop, ht, hf]
  · intro g env idh mh e hm hi hout
    exact runTrial_failOther files fuel g env idh mh e hm hi hout
  · intro g script r hr
    constructor
    · exact run_head_offset files fuel script _ r hr
    · refine run_bodyLen_le files fuel script ⟨0, true, 0, 0, g⟩ g 0 r
        (Nat.le_refl g) ?_ ?_
      · intro k resp hk
        omega
      · rw [← List.head?_eq_getElem?]
        exact hr

/-- Witness for C4's amended statement, on the leak scenario: trial 1 starts
at chunk 5, is corrected to 3 mid-transfer and fails; the loop hands 3 to
trial 2, whose first request starts back at offset 0. -/
theorem C4_amended_chunk_threading_witness :
    (orchLoop [some ⟨[1, 2, 3, 4, 5, 6, 7, 8], none⟩] 20 1
        [⟨.ok, .http 201 "s1" none, [.http 400 none (some 3), .transportErr]⟩,
         ⟨.ok, .http 201 "s1" none, [.transportErr]⟩] 0 5 0).trialChunks =
      5 :: (orchLoop [some ⟨[1, 2, 3, 4, 5, 6, 7, 8], none⟩] 20 1
        [⟨.ok, .http 201 "s1" none, [.transportErr]⟩] 1 3 0).trialChunks
  ∧ runTrial [some ⟨[1, 2, 3, 4, 5, 6, 7, 8], none⟩] 20 5
      ⟨.ok, .http 201 "s1" none, [.http 400 none (some 3), .transportErr]⟩ =
      .failOther (uploadFiles 5 [some ⟨[1, 2, 3, 4, 5, 6, 7, 8], none⟩]
        [.http 400 none (some 3), .transportErr] 20).finalChunk
  ∧ ((⟨0, 3⟩ : AppendReq).offset = 0 ∧ (⟨0, 3⟩ : AppendReq).bodyLen ≤ 3) :=
  ⟨((C4_amended_chunk_threading [some ⟨[1, 2, 3, 4, 5, 6, 7, 8], none⟩] 20 1).1
      ⟨.ok, .http 201 "s1" none, [.http 400 none (some 3), .transportErr]⟩
      [⟨.ok, .http 201 "s1" none, [.transportErr]⟩] 0 5 0 3 (by decide) (by decide)),
   ((C4_amended_chunk_threading [some ⟨[1, 2, 3, 4, 5, 6, 7, 8], none⟩] 20 1).2.1
      5 ⟨.ok, .http 201 "s1" none, [.http 400 none (some 3), .transportErr]⟩
      "s1" none .transport (by decide) (by decide) (by decide)),
   ((C4_amended_chunk_threading [some ⟨[1, 2, 3, 4, 5, 6, 7, 8], none⟩] 20 1).2.2
      3 [.transportErr] ⟨0, 3⟩ (by decide))⟩

/-- Claim C8, amended: a local stat failure before session open is fatal
immediately — the loop halts the process on that very trial (first conjunct);
an `os.Open` failure inside the transfer loop is also fatal immediately and
never retried, though not through the unreachable `return err` at
main.go L176 but through the nil-`*os.File` dereference of `file.Name()` at
L172, which panics and exits the process on the very trial it occurs (second
and third conjuncts); a non-EOF `Read` failure, however, is not fatal:
`uploadFiles` returns it as an ordinary non-nil error (fourth conjunct), the
loop body then asks to continue (fifth conjunct), and the orchestrator runs
another attempt exactly as for any retryable failure (sixth conjunct). -/
theorem C8_amended_local_file_policy (files : List (Option GoFile)) (fuel n : Nat) :
    (∀ (env : TrialEnv) (rest : List TrialEnv) (trial g : Nat) (cursor : Int),
       trial ≤ defaultMaxRetries → env.master = .ok → env.init = .statFail →
       orchLoop files fuel n (env :: rest) trial g cursor =
         ⟨.fatalStat, g, cursor, 1, [g]⟩)
  ∧ (∀ (g : Nat) (script : List Resp) (fl : List (Option GoFile)),
       files = none :: fl → 0 < fuel →
       (uploadFiles g files script fuel).out = .panicked)
  ∧ (∀ (env : TrialEnv) (rest : List TrialEnv) (trial g : Nat) (cursor : Int)
       (idh : String) (mh : Option Nat) (fl : List (Option GoFile)),
       trial ≤ defaultMaxRetries → env.master = .ok →
       env.init = .http 201 idh mh → files = none :: fl → 0 < fuel →
       orchLoop files fuel n (env :: rest) trial g cursor =
         ⟨.panicked, g, cursor, 1, [g]⟩)
  ∧ (∀ (g : Nat) (script : List Resp) (fl : List (Option GoFile))
       (content : List Nat),
       files = some ⟨content, some 0⟩ :: fl → 1 < fuel →
       (uploadFiles g files script fuel).out = .ret (some .readErr))
  ∧ (∀ (g : Nat) (env : TrialEnv) (idh : String) (mh : Option Nat) (e : GoErr),
       env.master = .ok → env.init = .http 201 idh mh →
       (uploadFiles g files env.script fuel).out = .ret (some e) →
       runTrial files fuel g env =
         .failOther (uploadFiles g files env.script fuel).finalChunk)
  ∧ (∀ (env : TrialEnv) (rest : List TrialEnv) (trial g : Nat) (cursor : Int)
       (g' : Nat), trial ≤ defaultMaxRetries →
       runTrial files fuel g env = .failOther g' →
       (orchLoop files fuel n (env :: rest) trial g cursor).attempts =
         (orchLoop files fuel n rest (trial + 1) g' cursor).attempts + 1) := by
  have hpanic : ∀ (g : Nat) (script : List Resp) (fl : List (Option GoFile)),
      files = none :: fl → 0 < fuel →
      (uploadFiles g files script fuel).out = .panicked := by
    intro g script fl hfl hfuel
    obtain ⟨f1, rfl⟩ : ∃ f1, fuel = f1 + 1 := ⟨fuel - 1, by omega⟩
    subst hfl
    simp [uploadFiles, run]
  refine ⟨?_, hpanic, ?_, ?_, ?_, ?_⟩
  · intro env rest trial g cursor ht hm hi
    simp [orchLoop, ht, runTrial, hm, hi, sendInitialRequest]
  · intro env rest trial g cursor idh mh fl ht hm hi hfl hfuel
    have hout := hpanic g env.script fl hfl hfuel
    have htr : runTrial files fuel g env = .halt .panicked := by
      simp only [runTrial, hm, hi, sendInitialRequest]
      simp [hout]
    simp [orchLoop, ht, htr]
  · intro g script fl content hfl hfuel
    obtain ⟨f2, rfl⟩ : ∃ f2, fuel = f2 + 2 := ⟨fuel - 2, by omega⟩
    subst hfl
    simp [uploadFiles, run, GoFile.read]
  · intro g env idh mh e hm hi hout
    exact runTrial_failOther files fuel g env idh mh e hm hi hout
  · intro env rest trial g cursor g' ht hf
    simp [orchLoop, ht, hf]

/-- Witness for C8's amended statement: a stat failure halts the process on
trial 1; an unopenable video file panics the process on trial 1 (never
retried); and a read failure is surfaced as an error, the loop body
continuing into another attempt. -/
theorem C8_amended_local_file_policy_witness :
    orchLoop [none] 10 1 [⟨.ok, .statFail, []⟩] 0 4 0 = ⟨.fatalStat, 4, 0, 1, [4]⟩
  ∧ (uploadFiles 4 [none] [] 10).out = .panicked
  ∧ orchLoop [none] 10 1
      [⟨.ok, .http 201 "s1" none, []⟩, ⟨.ok, .http 201 "s1" none, []⟩] 0 4 0 =
      ⟨.panicked, 4, 0, 1, [4]⟩
  ∧ (uploadFiles 4 [some ⟨[5, 5], some 0⟩] [] 10).out = .ret (some .readErr)
  ∧ runTrial [some ⟨[5, 5], some 0⟩] 10 4 ⟨.ok, .http 201 "s1" none, []⟩ =
      .failOther (uploadFiles 4 [some ⟨[5, 5], some 0⟩] [] 10).finalChunk
  ∧ (orchLoop [some ⟨[5, 5], some 0⟩] 10 1
      [⟨.ok, .http 201 "s1" none, []⟩, ⟨.ok, .http 201 "s1" none, []⟩] 0 4 0).attempts =
      (orchLoop [some ⟨[5, 5], some 0⟩] 10 1
        [⟨.ok, .http 201 "s1" none, []⟩] 1 4 0).attempts + 1 :=
  ⟨(C8_amended_local_file_policy [none] 10 1).1 ⟨.ok, .statFail, []⟩ [] 0 4 0
      (by decide) (by decide) (by decide),
   (C8_amended_local_file_policy [none] 10 1).2.1 4 [] [] rfl (by decide),
   (C8_amended_local_file_policy [none] 10 1).2.2.1
      ⟨.ok, .http 201 "s1" none, []⟩ [⟨.ok, .http 201 "s1" none, []⟩] 0 4 0
      "s1" none [] (by decide) (by decide) (by decide) rfl (by decide),
   (C8_amended_local_file_policy [some ⟨[5, 5], some 0⟩] 10 1).2.2.2.1 4 [] []
      [5, 5] rfl (by decide),
   (C8_amended_local_file_policy [some ⟨[5, 5], some 0⟩] 10 1).2.2.2.2.1 4
      ⟨.ok, .http 201 "s1" none, []⟩ "s1" none .readErr (by decide) (by decide)
      (by decide),
   (C8_amended_local_file_policy [some ⟨[5, 5], some 0⟩] 10 1).2.2.2.2.2
      ⟨.ok, .http 201 "s1" none, []⟩ [⟨.ok, .http 201 "s1" none, []⟩] 0 4 0 4
      (by decide) (by decide)⟩

end Videra
